import Mathlib

/-!
# Verification of the text-to-SQL pipeline (`app.py`)

A shallow embedding of the pure computational parts of `app.py`:
the query corrector `validate_sql_query`, the response cleaning in
`get_gemini_response`, the prompt construction, the executor
`read_sql_query`, the schema inspector
`get_schema_info_with_sqlalchemy`, and the submission handler of the
Streamlit presentation layer.

Python strings are modelled as `List Char`.  The Python primitives the
code relies on (`str.lower`, `in` substring test, `str.replace`,
`str.strip`) are given faithful executable models below:
`strLower`, `isSubstr`, `pyReplace`, `pyStrip`.
-/

set_option autoImplicit false

/-- Python strings are modelled as lists of characters. -/
abbrev Str := List Char

/-- Coerce a Lean string literal into the model type. -/
def str (s : String) : Str := s.data

/-- Model of Python `s.lower()` (the identifiers involved are ASCII). -/
def strLower (s : Str) : Str := s.map Char.toLower

/-- `startsWith p s` holds when `p` is a prefix of `s`
(the test Python's `str.replace` performs at each scan position). -/
def startsWith : Str → Str → Bool
  | [], _ => true
  | _ :: _, [] => false
  | a :: p, b :: s => a == b && startsWith p s

/-- Model of Python's substring test `p in s`. -/
def isSubstr (p : Str) : Str → Bool
  | [] => p.isEmpty
  | c :: rest => startsWith p (c :: rest) || isSubstr p rest

/-- Scanning core of Python `s.replace(old, new)` for a non-empty
pattern `o :: ot`: leftmost, non-overlapping, replaces all occurrences.
Each scan step consumes at least one character, so `fuel = s.length`
suffices; the fuel makes the recursion structural. -/
def pyReplaceAux (o : Char) (ot new : Str) : Nat → Str → Str
  | _, [] => []
  | 0, s => s
  | fuel + 1, c :: rest =>
    if startsWith (o :: ot) (c :: rest) then
      new ++ pyReplaceAux o ot new fuel (rest.drop ot.length)
    else
      c :: pyReplaceAux o ot new fuel rest

/-- Python `s.replace("", new)` inserts `new` before every character
and at the end. -/
def pyReplaceEmpty (new : Str) : Str → Str
  | [] => new
  | c :: rest => new ++ c :: pyReplaceEmpty new rest

/-- Model of Python `s.replace(old, new)`. -/
def pyReplace (old new s : Str) : Str :=
  match old with
  | [] => pyReplaceEmpty new s
  | o :: ot => pyReplaceAux o ot new s.length s

/-- Model of Python `s.strip(chars)` / `s.strip()`: remove leading and
trailing characters satisfying `p`. -/
def pyStrip (p : Char → Bool) (s : Str) : Str :=
  ((s.dropWhile p).reverse.dropWhile p).reverse

/-- The characters Python's no-argument `str.strip()` removes
(ASCII whitespace). -/
def isPySpace (c : Char) : Bool :=
  c == ' ' || c == '\t' || c == '\n' || c == '\r' || c == '\x0b' || c == '\x0c'

/-- One correction step of `validate_sql_query` (`app.py` lines 85‑86 and
90‑91) for a single schema token `tok` (a table or column name):
`if tok.lower() in query.lower(): corrected = corrected.replace(tok.lower(), tok)`.
Note the guard tests the original `query`, the replacement acts on the
accumulator `acc`. -/
def correct_token (query acc tok : Str) : Str :=
  if isSubstr (strLower tok) (strLower query) then
    pyReplace (strLower tok) tok acc
  else
    acc

/-- `validate_sql_query` (`app.py` lines 79‑93).  The schema mapping is an
association list (Python dict iteration order) from table name to column
names.  For each entry in order: the table-name step, then one step per
column of that table. -/
def validate_sql_query (query : Str) (schema_info : List (Str × List Str)) : Str :=
  schema_info.foldl
    (fun acc entry => entry.2.foldl (correct_token query) (correct_token query acc entry.1))
    query

/-- The two-phase reference algorithm of the spec's §4.4 reading in which
all table substitutions happen before any column substitution: first one
pass over the schema doing only the table-name steps, then one pass doing
all the column steps.  (Written from the spec's words, to be compared with
`validate_sql_query`, which is written from the source.) -/
def two_phase_correct (query : Str) (schema_info : List (Str × List Str)) : Str :=
  schema_info.foldl
    (fun acc entry => entry.2.foldl (correct_token query) acc)
    (schema_info.foldl (fun acc entry => correct_token query acc entry.1) query)

/-- Column passes of the interleaved reference algorithm, written as
explicit recursion with the guard/replace step inlined. -/
def cols_pass (query : Str) : List Str → Str → Str
  | [], acc => acc
  | c :: cs, acc =>
    cols_pass query cs
      (if isSubstr (strLower c) (strLower query) then pyReplace (strLower c) c acc else acc)

/-- The interleaved reference algorithm: for each schema entry in
iteration order, first the table-name substitution, then that table's
column substitutions, every guard evaluated against the original query. -/
def interleaved_correct (query : Str) : List (Str × List Str) → Str → Str
  | [], acc => acc
  | (t, cols) :: rest, acc =>
    interleaved_correct query rest
      (cols_pass query cols
        (if isSubstr (strLower t) (strLower query) then pyReplace (strLower t) t acc else acc))

/-- Fixed text of the prompt f-string (`app.py` lines 18‑22) before the
interpolated `schema_info`. -/
def gemini_prompt_head : Str :=
  str "\n    You are an expert in converting English questions to SQL query.\n    The SQL database has the following tables and columns:\n    \n    "

/-- Fixed text of the prompt f-string (`app.py` lines 22‑31) between the
interpolated `schema_info` and the interpolated `question`. -/
def gemini_prompt_mid : Str :=
  str "\n    \n    The SQL query should match the schema and should not include any invalid table or column names.\n    Ensure that the query does not start or end with backticks (```).\n    \n    Example:\n    Question: How many entries are in the students table?\n    SQL command: SELECT COUNT(*) FROM students;\n\n    Now, for the given question: \""

/-- Fixed text of the prompt f-string (`app.py` lines 31‑32) after the
interpolated `question`. -/
def gemini_prompt_tail : Str :=
  str "\", please generate a valid SQL query.\n    "

/-- The prompt `get_gemini_response` builds (`app.py` lines 18‑32): the
f-string with `schema_info` and `question` interpolated. -/
def gemini_prompt (question schema_info : Str) : Str :=
  gemini_prompt_head ++ (schema_info ++ (gemini_prompt_mid ++ (question ++ gemini_prompt_tail)))

/-- The response cleaning of `get_gemini_response` (`app.py` line 38):
`response.text.strip("```").strip()` — strip backtick characters from both
ends, then strip whitespace from both ends. -/
def gemini_cleaned (response_text : Str) : Str :=
  pyStrip isPySpace (pyStrip (fun c => c == '`') response_text)

/-- `get_gemini_response` (`app.py` lines 16‑40), parameterized by the
external generative service, modelled as a function `service` from the
prompt text to the reply text: build the prompt, call the service once,
clean the reply. -/
def get_gemini_response (service : Str → Str) (question schema_info : Str) : Str :=
  gemini_cleaned (service (gemini_prompt question schema_info))

/-- Outcome of attempting to execute a SQL string against a database file:
either the fetched rows (each of type `α`) or a raised exception,
identified by its string description. -/
inductive ExecOutcome (α : Type) where
  | ok (rows : List α)
  | exc (msg : Str)
deriving DecidableEq

/-- `read_sql_query` (`app.py` lines 44‑55), parameterized by the sqlite3
engine, modelled as a function from the SQL string and database file path
to an execution outcome.  The `try` body connects, executes and fetches
(`engine sql db_file`); `except Exception as e: return str(e)` turns any
raised exception into its string description, sharing the return channel
with the row sequence. -/
def read_sql_query {α : Type} (engine : Str → Str → ExecOutcome α) (sql db_file : Str) :
    Sum Str (List α) :=
  match engine sql db_file with
  | ExecOutcome.ok rows => Sum.inr rows
  | ExecOutcome.exc e => Sum.inl e

/-- Modelled from the spec: the round-trip property's SQLite execution
semantics (the `sqlite3` library is external to `src/`).  A database is a
mapping from table name to its list of rows; executing
`SELECT * FROM <table>;` fetches all rows of that table in order, an
unknown table or any other statement shape raises an execution error. -/
def sqlite_engine {α : Type} (db : List (Str × List α)) (sql : Str) (_db_file : Str) :
    ExecOutcome α :=
  if startsWith (str "SELECT * FROM ") sql then
    match (sql.drop (str "SELECT * FROM ").length).reverse with
    | ';' :: revName =>
      match List.lookup revName.reverse db with
      | some rows => ExecOutcome.ok rows
      | none => ExecOutcome.exc (str "no such table: " ++ revName.reverse)
    | _ => ExecOutcome.exc (str "syntax mistake")
  else
    ExecOutcome.exc (str "unsupported statement")

/-- Outcome of the SQLAlchemy introspection work inside
`get_schema_info_with_sqlalchemy` (`app.py` lines 62‑72): either the
inspector's table/column data, or a raised `SQLAlchemyError`, or a raised
exception of any other class, each exception identified by its string
description. -/
inductive InspectOutcome where
  | tables (info : List (Str × List Str))
  | sqlaExc (msg : Str)
  | otherExc (msg : Str)
deriving DecidableEq

/-- `get_schema_info_with_sqlalchemy` (`app.py` lines 58‑76), parameterized
by the introspection outcome.  On success the `schema_info` dict built from
the inspector data is returned (`Sum.inr`); `except SQLAlchemyError as e:
return str(e)` returns the error string (`Sum.inl`); an exception of any
other class is not caught and propagates past the function boundary,
modelled as `Except.error`. -/
def get_schema_info_with_sqlalchemy (outcome : InspectOutcome) :
    Except Str (Sum Str (List (Str × List Str))) :=
  match outcome with
  | InspectOutcome.tables info => Except.ok (Sum.inr info)
  | InspectOutcome.sqlaExc m => Except.ok (Sum.inl m)
  | InspectOutcome.otherExc m => Except.error m

/-- Observable effects of one pass through the submission handler
(`app.py` lines 109‑146). -/
inductive Event where
  | showValidationError
  | dbWrite
  | schemaInspect
  | geminiCall
  | sqlExec
deriving DecidableEq

/-- The submission handler (`app.py` lines 109‑135) as the ordered list of
effects it performs: nothing unless a file is uploaded and submit is
clicked; a validation error and nothing else when `question.strip() == ""`;
otherwise the processing chain — write the uploaded bytes to
`temp_database.db`, inspect the schema, call the generative service,
execute the corrected query. -/
def submission_handler (uploaded_file submit : Bool) (question : Str) : List Event :=
  if uploaded_file && submit then
    if pyStrip isPySpace question = [] then
      [Event.showValidationError]
    else
      [Event.dbWrite, Event.schemaInspect, Event.geminiCall, Event.sqlExec]
  else
    []

/-! ## Helper lemmas about the Python string primitives -/

theorem isSubstr_nil (s : Str) : isSubstr [] s = true := by
  cases s with
  | nil => rfl
  | cons c rest => simp [isSubstr, startsWith]

theorem startsWith_append_of {p s : Str} (t : Str) (h : startsWith p s = true) :
    startsWith p (s ++ t) = true := by
  induction p generalizing s with
  | nil => rfl
  | cons a p ih =>
    cases s with
    | nil => simp [startsWith] at h
    | cons b s =>
      simp only [startsWith, Bool.and_eq_true] at h
      simp only [List.cons_append, startsWith, Bool.and_eq_true]
      exact ⟨h.1, ih h.2⟩

theorem startsWith_self_append (p t : Str) : startsWith p (p ++ t) = true := by
  induction p with
  | nil => rfl
  | cons a p ih => simp [startsWith, ih]

theorem startsWith_eq_append {p s : Str} (h : startsWith p s = true) :
    p ++ s.drop p.length = s := by
  induction p generalizing s with
  | nil => simp
  | cons a p ih =>
    cases s with
    | nil => simp [startsWith] at h
    | cons b s =>
      simp only [startsWith, Bool.and_eq_true, beq_iff_eq] at h
      simp only [List.cons_append, List.length_cons, List.drop_succ_cons, h.1, List.cons.injEq,
        true_and]
      exact ih h.2

theorem isSubstr_append_left {p a : Str} (b : Str) (h : isSubstr p a = true) :
    isSubstr p (a ++ b) = true := by
  induction a with
  | nil =>
    simp only [isSubstr, List.isEmpty_iff] at h
    subst h
    exact isSubstr_nil b
  | cons c rest ih =>
    simp only [isSubstr, Bool.or_eq_true] at h
    rcases h with h | h
    · simp only [List.cons_append, isSubstr, Bool.or_eq_true]
      exact Or.inl (startsWith_append_of b h)
    · simp only [List.cons_append, isSubstr, Bool.or_eq_true]
      exact Or.inr (ih h)

theorem isSubstr_append_right {p b : Str} (a : Str) (h : isSubstr p b = true) :
    isSubstr p (a ++ b) = true := by
  induction a with
  | nil => simpa using h
  | cons c rest ih =>
    simp only [List.cons_append, isSubstr, Bool.or_eq_true]
    exact Or.inr ih

theorem isSubstr_self_append (p t : Str) : isSubstr p (p ++ t) = true := by
  cases p with
  | nil => exact isSubstr_nil t
  | cons a p =>
    simp only [List.cons_append, isSubstr, Bool.or_eq_true]
    exact Or.inl (startsWith_self_append (a :: p) t)

theorem pyReplaceAux_self (o : Char) (ot : Str) :
    ∀ fuel s, s.length ≤ fuel → pyReplaceAux o ot (o :: ot) fuel s = s := by
  intro fuel
  induction fuel with
  | zero =>
    intro s hs
    cases s with
    | nil => rfl
    | cons c rest => simp at hs
  | succ fuel ih =>
    intro s hs
    cases s with
    | nil => rfl
    | cons c rest =>
      simp only [pyReplaceAux]
      by_cases h : startsWith (o :: ot) (c :: rest) = true
      · rw [if_pos h]
        have hd : (rest.drop ot.length).length ≤ fuel := by
          have := List.length_drop ot.length rest
          simp only [List.length_cons] at hs
          omega
        rw [ih (rest.drop ot.length) hd]
        have := startsWith_eq_append h
        simpa using this
      · rw [if_neg h]
        have hr : rest.length ≤ fuel := by
          simp only [List.length_cons] at hs
          omega
        rw [ih rest hr]

theorem pyReplace_self (p s : Str) : pyReplace p p s = s := by
  cases p with
  | nil =>
    show pyReplaceEmpty [] s = s
    induction s with
    | nil => rfl
    | cons c rest ih => simp [pyReplaceEmpty, ih]
  | cons o ot => exact pyReplaceAux_self o ot s.length s (Nat.le_refl _)

theorem pyReplaceAux_of_not_substr (o : Char) (ot new : Str) :
    ∀ fuel s, isSubstr (o :: ot) s = false → pyReplaceAux o ot new fuel s = s := by
  intro fuel
  induction fuel with
  | zero =>
    intro s _
    cases s with
    | nil => rfl
    | cons c rest => rfl
  | succ fuel ih =>
    intro s hs
    cases s with
    | nil => rfl
    | cons c rest =>
      simp only [isSubstr, Bool.or_eq_false_iff] at hs
      simp only [pyReplaceAux, hs.1, Bool.false_eq_true, if_false]
      rw [ih rest hs.2]

theorem pyReplace_of_not_substr {p s : Str} (new : Str) (h : isSubstr p s = false) :
    pyReplace p new s = s := by
  cases p with
  | nil => rw [isSubstr_nil] at h; exact absurd h (by simp)
  | cons o ot => exact pyReplaceAux_of_not_substr o ot new s.length s h

/-! ## Lemmas about the corrector -/

theorem correct_token_of_lower_fixed {tok : Str} (query acc : Str) (h : strLower tok = tok) :
    correct_token query acc tok = acc := by
  unfold correct_token
  rw [h]
  split
  · exact pyReplace_self tok acc
  · rfl

theorem correct_token_of_not_substr {tok query : Str} (h : isSubstr (strLower tok) query = false) :
    correct_token query query tok = query := by
  unfold correct_token
  split
  · exact pyReplace_of_not_substr tok h
  · rfl

theorem cols_foldl_of_lower_fixed (query : Str) :
    ∀ (cols : List Str) (acc : Str), (∀ c ∈ cols, strLower c = c) →
      cols.foldl (correct_token query) acc = acc := by
  intro cols
  induction cols with
  | nil => intro acc _; rfl
  | cons c cs ih =>
    intro acc h
    simp only [List.foldl_cons]
    rw [correct_token_of_lower_fixed query acc (h c (List.mem_cons_self c cs))]
    exact ih acc (fun c' hc' => h c' (List.mem_cons_of_mem c hc'))

theorem validate_of_lower_fixed (query : Str) :
    ∀ (schema_info : List (Str × List Str)),
      (∀ e ∈ schema_info, strLower e.1 = e.1 ∧ ∀ c ∈ e.2, strLower c = c) →
      validate_sql_query query schema_info = query := by
  have main : ∀ (schema_info : List (Str × List Str)) (acc : Str),
      (∀ e ∈ schema_info, strLower e.1 = e.1 ∧ ∀ c ∈ e.2, strLower c = c) →
      schema_info.foldl
        (fun acc entry => entry.2.foldl (correct_token query) (correct_token query acc entry.1))
        acc = acc := by
    intro schema_info
    induction schema_info with
    | nil => intro acc _; rfl
    | cons e rest ih =>
      intro acc h
      have he := h e (List.mem_cons_self e rest)
      simp only [List.foldl_cons]
      rw [correct_token_of_lower_fixed query acc he.1,
        cols_foldl_of_lower_fixed query e.2 acc he.2]
      exact ih acc (fun e' he' => h e' (List.mem_cons_of_mem e he'))
  intro schema_info h
  exact main schema_info query h

theorem cols_foldl_of_not_substr (query : Str) :
    ∀ (cols : List Str), (∀ c ∈ cols, isSubstr (strLower c) query = false) →
      cols.foldl (correct_token query) query = query := by
  intro cols
  induction cols with
  | nil => intro _; rfl
  | cons c cs ih =>
    intro h
    simp only [List.foldl_cons]
    rw [correct_token_of_not_substr (h c (List.mem_cons_self c cs))]
    exact ih (fun c' hc' => h c' (List.mem_cons_of_mem c hc'))

theorem validate_of_not_substr (query : Str) :
    ∀ (schema_info : List (Str × List Str)),
      (∀ e ∈ schema_info,
        isSubstr (strLower e.1) query = false ∧ ∀ c ∈ e.2, isSubstr (strLower c) query = false) →
      validate_sql_query query schema_info = query := by
  intro schema_info
  induction schema_info with
  | nil => intro _; rfl
  | cons e rest ih =>
    intro h
    have he := h e (List.mem_cons_self e rest)
    have step : e.2.foldl (correct_token query) (correct_token query query e.1) = query := by
      rw [correct_token_of_not_substr he.1]
      exact cols_foldl_of_not_substr query e.2 he.2
    show List.foldl _ _ (e :: rest) = query
    simp only [List.foldl_cons, step]
    exact ih (fun e' he' => h e' (List.mem_cons_of_mem e he'))

theorem cols_pass_eq_foldl (query : Str) :
    ∀ (cols : List Str) (acc : Str), cols.foldl (correct_token query) acc = cols_pass query cols acc := by
  intro cols
  induction cols with
  | nil => intro acc; rfl
  | cons c cs ih =>
    intro acc
    simp only [List.foldl_cons, cols_pass, correct_token]
    exact ih _

theorem interleaved_eq_foldl (query : Str) :
    ∀ (schema_info : List (Str × List Str)) (acc : Str),
      schema_info.foldl
        (fun acc entry => entry.2.foldl (correct_token query) (correct_token query acc entry.1))
        acc = interleaved_correct query schema_info acc := by
  intro schema_info
  induction schema_info with
  | nil => intro acc; rfl
  | cons e rest ih =>
    intro acc
    simp only [List.foldl_cons, interleaved_correct]
    rw [← ih, cols_pass_eq_foldl]
    rfl

theorem pyStrip_eq_nil_of_all {p : Char → Bool} {s : Str} (h : ∀ c ∈ s, p c = true) :
    pyStrip p s = [] := by
  unfold pyStrip
  rw [List.dropWhile_eq_nil_iff.mpr h]
  rfl

/-! ## Claims -/

/-- C1 (counterexample): the corrector does not canonicalize an
upper-case occurrence of a schema token.  For the schema with table
`students` and columns `[id, name]`, correcting
`SELECT COUNT(*) FROM STUDENTS;` does not produce
`SELECT COUNT(*) FROM students;` — the replacement
`corrected_query.replace(table.lower(), table)` only matches the
all-lowercase spelling, which does not occur in the query. -/
theorem uppercase_students_not_canonicalized :
    validate_sql_query (str "SELECT COUNT(*) FROM STUDENTS;")
      [(str "students", [str "id", str "name"])] ≠ str "SELECT COUNT(*) FROM students;" := by
  decide

/-- C1 (amended): the corrector rewrites only exact all-lowercase
spellings of schema tokens, so for the schema with table `students` and
columns `[id, name]` the query `SELECT COUNT(*) FROM STUDENTS;` is
returned byte-for-byte unchanged. -/
theorem uppercase_students_left_unchanged :
    validate_sql_query (str "SELECT COUNT(*) FROM STUDENTS;")
      [(str "students", [str "id", str "name"])] = str "SELECT COUNT(*) FROM STUDENTS;" := by
  decide

/-- C2 (counterexample): the corrector is not idempotent.  For the schema
with table `aBa` and the query `ababa`, one application yields `aBaba`
(the two occurrences of the lowercase pattern `aba` overlap, so only the
first is replaced), and a second application rewrites the occurrence of
`aba` that the first application left behind, yielding `aBaBa`. -/
theorem corrector_not_idempotent :
    validate_sql_query (validate_sql_query (str "ababa") [(str "aBa", [])]) [(str "aBa", [])] ≠
      validate_sql_query (str "ababa") [(str "aBa", [])] := by
  decide

/-- C2 (amended): when every schema token is already all-lowercase, a
single application of the corrector returns every query unchanged, and in
particular the corrector is idempotent on such schemas.  (In general the
corrector is not idempotent; see the counterexample.) -/
theorem corrector_identity_on_lowercase_schema
    (query : Str) (schema_info : List (Str × List Str))
    (h : ∀ e ∈ schema_info, strLower e.1 = e.1 ∧ ∀ c ∈ e.2, strLower c = c) :
    validate_sql_query query schema_info = query ∧
      validate_sql_query (validate_sql_query query schema_info) schema_info =
        validate_sql_query query schema_info := by
  have h1 := validate_of_lower_fixed query schema_info h
  refine ⟨h1, ?_⟩
  rw [h1]
  exact validate_of_lower_fixed query schema_info h

theorem corrector_identity_on_lowercase_schema_witness :
    (∀ e ∈ [(str "students", [str "id", str "name"])],
        strLower e.1 = e.1 ∧ ∀ c ∈ e.2, strLower c = c) ∧
      validate_sql_query (str "SELECT name FROM students;")
          [(str "students", [str "id", str "name"])] = str "SELECT name FROM students;" :=
  ⟨by decide,
    (corrector_identity_on_lowercase_schema (str "SELECT name FROM students;")
      [(str "students", [str "id", str "name"])] (by decide)).1⟩

/-- C3 (counterexample): the corrector's output differs from the
two-phase reference algorithm in which all table substitutions happen
before any column substitution.  For the schema `{T: [aB], bC: []}` and
query `abc`, the code corrects the column `aB` of the first table before
the table name `bC` of the second entry, yielding `aBc`; the two-phase
algorithm substitutes the table name first and yields `aBC`. -/
theorem interleaving_differs_from_two_phase :
    validate_sql_query (str "abc") [(str "T", [str "aB"]), (str "bC", [])] ≠
      two_phase_correct (str "abc") [(str "T", [str "aB"]), (str "bC", [])] := by
  decide

/-- C3 (amended): the corrector's output equals the interleaved reference
algorithm: for each schema entry in iteration order, first the table-name
substitution, then that entry's column substitutions, with every guard
evaluated against the original query — not all tables before all
columns. -/
theorem corrector_eq_interleaved_reference
    (query : Str) (schema_info : List (Str × List Str)) :
    validate_sql_query query schema_info = interleaved_correct query schema_info query :=
  interleaved_eq_foldl query schema_info query

/-- C4 (counterexample): the cleaning step of the query generator does
not reduce the fenced response to the bare statement: for the service
response given by the three lines of text — a fence with language tag,
then the statement, then a closing fence — the cleaned output is not
exactly the statement, because the language tag survives the strip. -/
theorem fence_language_tag_not_stripped :
    get_gemini_response (fun _ => str "```sql\nSELECT 1;\n```") (str "q") (str "s") ≠
      str "SELECT 1;" := by
  decide

/-- C4 (amended): `strip("```")` removes backtick characters from both
ends and the following `strip()` removes the surrounding whitespace, but
the language tag after the opening fence is kept: the fenced service
response cleans to the text `sql`, a newline, and the statement. -/
theorem fenced_response_cleaning_value :
    get_gemini_response (fun _ => str "```sql\nSELECT 1;\n```") (str "q") (str "s") =
      str "sql\nSELECT 1;" := by
  decide

/-- C5: submitting with an empty or all-whitespace question produces
exactly the validation error and none of the processing-chain effects —
no write of the temporary database file and no call to the generative
service — for any combination of the upload and submit inputs. -/
theorem blank_question_only_validation_error
    (question : Str) (h : ∀ c ∈ question, isPySpace c = true) :
    submission_handler true true question = [Event.showValidationError] ∧
      ∀ uploaded_file submit : Bool,
        Event.dbWrite ∉ submission_handler uploaded_file submit question ∧
          Event.geminiCall ∉ submission_handler uploaded_file submit question := by
  have hstrip : pyStrip isPySpace question = [] := pyStrip_eq_nil_of_all h
  refine ⟨?_, ?_⟩
  · simp [submission_handler, hstrip]
  · intro uploaded_file submit
    cases uploaded_file <;> cases submit <;> simp [submission_handler, hstrip]

theorem blank_question_only_validation_error_witness :
    (∀ c ∈ str "   ", isPySpace c = true) ∧
      submission_handler true true (str "   ") = [Event.showValidationError] :=
  ⟨by decide, (blank_question_only_validation_error (str "   ") (by decide)).1⟩

/-- C6: the query executor is total over every engine outcome and shares
one return channel: when execution raises, it returns the exception's
string description on the left; when execution succeeds, it returns the
ordered fetched rows on the right.  Nothing escapes the executor
boundary. -/
theorem read_sql_query_total_shape (α : Type) (engine : Str → Str → ExecOutcome α)
    (sql db_file : Str) :
    (∃ e, engine sql db_file = ExecOutcome.exc e ∧
        read_sql_query engine sql db_file = Sum.inl e) ∨
      (∃ rows, engine sql db_file = ExecOutcome.ok rows ∧
        read_sql_query engine sql db_file = Sum.inr rows) := by
  cases h : engine sql db_file with
  | ok rows => exact Or.inr ⟨rows, rfl, by simp [read_sql_query, h]⟩
  | exc e => exact Or.inl ⟨e, rfl, by simp [read_sql_query, h]⟩

/-- C7 (counterexample): the schema inspector's `except` clause catches
only `SQLAlchemyError`; an exception of any other class raised during
introspection propagates past the function boundary instead of being
returned as an error string. -/
theorem non_sqlalchemy_exception_propagates :
    get_schema_info_with_sqlalchemy (InspectOutcome.otherExc (str "boom")) =
      Except.error (str "boom") := by
  rfl

/-- C7 (amended): the schema inspector returns the inspected mapping on
success and the error description string exactly when the raised
exception is a `SQLAlchemyError`; an exception of any other class is not
caught and propagates past the function boundary. -/
theorem schema_inspector_catches_only_sqlalchemy (outcome : InspectOutcome) :
    (∃ info, outcome = InspectOutcome.tables info ∧
        get_schema_info_with_sqlalchemy outcome = Except.ok (Sum.inr info)) ∨
      (∃ m, outcome = InspectOutcome.sqlaExc m ∧
        get_schema_info_with_sqlalchemy outcome = Except.ok (Sum.inl m)) ∨
      (∃ m, outcome = InspectOutcome.otherExc m ∧
        get_schema_info_with_sqlalchemy outcome = Except.error m) := by
  cases outcome with
  | tables info => exact Or.inl ⟨info, rfl, rfl⟩
  | sqlaExc m => exact Or.inr (Or.inl ⟨m, rfl, rfl⟩)
  | otherExc m => exact Or.inr (Or.inr ⟨m, rfl, rfl⟩)

/-- C8: round-trip through the executor on an empty table.  Against the
modelled SQLite engine over a database containing the single table `t`
with no rows, executing `SELECT * FROM t;` returns the empty row
sequence on the success channel, not an error string. -/
theorem empty_table_roundtrip :
    read_sql_query (sqlite_engine [(str "t", ([] : List (List Int)))])
      (str "SELECT * FROM t;") (str "temp_database.db") = Sum.inr [] := by
  decide

set_option maxRecDepth 20000 in
/-- C9 (counterexample): the prompt does not contain the role statement
the claim quotes — the source text reads "expert in converting English
questions to SQL query", not "expert at converting English to SQL". -/
theorem role_statement_quote_absent :
    isSubstr (str "expert at converting English to SQL")
      (gemini_prompt (str "q") (str "s")) = false := by
  decide

set_option maxRecDepth 20000 in
/-- C9 (amended): the prompt builder is a deterministic function of the
question and the rendered schema, and its output contains the role
statement "expert in converting English questions to SQL query", the
schema listing, the formatting constraint forbidding code-fence markers,
the worked example, and the target question verbatim. -/
theorem gemini_prompt_contains_parts (question schema_info : Str) :
    isSubstr (str "expert in converting English questions to SQL query")
        (gemini_prompt question schema_info) = true ∧
      isSubstr schema_info (gemini_prompt question schema_info) = true ∧
      isSubstr (str "Ensure that the query does not start or end with backticks (```).")
        (gemini_prompt question schema_info) = true ∧
      isSubstr (str "Question: How many entries are in the students table?\n    SQL command: SELECT COUNT(*) FROM students;")
        (gemini_prompt question schema_info) = true ∧
      isSubstr question (gemini_prompt question schema_info) = true := by
  unfold gemini_prompt
  refine ⟨?_, ?_, ?_, ?_, ?_⟩
  · exact isSubstr_append_left _ (by decide)
  · exact isSubstr_append_right _ (isSubstr_self_append _ _)
  · exact isSubstr_append_right _ (isSubstr_append_right _ (isSubstr_append_left _ (by decide)))
  · exact isSubstr_append_right _ (isSubstr_append_right _ (isSubstr_append_left _ (by decide)))
  · exact isSubstr_append_right _ (isSubstr_append_right _
      (isSubstr_append_right _ (isSubstr_self_append _ _)))

/-- C10 (counterexample): an occurrence of a schema token whose casing is
not all-lowercase can be altered.  For the schema with table `Name` and
column `AM`, the query consisting exactly of the table name `Name` — not
an all-lowercase spelling, since its lowercase form differs — is not left
byte-for-byte unchanged: the all-lowercase occurrence of the column
token `AM` (the letters `am` inside `Name`) overlaps it and is rewritten,
producing `NAMe`. -/
theorem canonical_occurrence_clobbered :
    validate_sql_query (str "Name") [(str "Name", [str "AM"])] ≠ str "Name" ∧
      strLower (str "Name") ≠ str "Name" := by
  decide

/-- C10 (amended): the corrector only ever rewrites exact all-lowercase
spellings of schema tokens, so a query in which no table or column
name's lowercased spelling occurs as a substring is returned unchanged.
(A non-lowercase occurrence of one token can still be altered when an
all-lowercase occurrence of a different token overlaps it; see the
counterexample.) -/
theorem corrector_id_without_lowercase_occurrences
    (query : Str) (schema_info : List (Str × List Str))
    (h : ∀ e ∈ schema_info,
      isSubstr (strLower e.1) query = false ∧ ∀ c ∈ e.2, isSubstr (strLower c) query = false) :
    validate_sql_query query schema_info = query :=
  validate_of_not_substr query schema_info h

theorem corrector_id_without_lowercase_occurrences_witness :
    (∀ e ∈ [(str "students", [str "id", str "name"])],
        isSubstr (strLower e.1) (str "SELECT * FROM TEACHERS;") = false ∧
          ∀ c ∈ e.2, isSubstr (strLower c) (str "SELECT * FROM TEACHERS;") = false) ∧
      validate_sql_query (str "SELECT * FROM TEACHERS;")
          [(str "students", [str "id", str "name"])] = str "SELECT * FROM TEACHERS;" :=
  ⟨by decide,
    corrector_id_without_lowercase_occurrences (str "SELECT * FROM TEACHERS;")
      [(str "students", [str "id", str "name"])] (by decide)⟩
